import Mathlib

/-!
Shallow embedding of `torchensemble/snapshot_ensemble.py`.

The Python module trains a snapshot ensemble: one live estimator is trained
through a cyclic learning-rate schedule; at cycle boundaries a deep copy of
the estimator is appended to `estimators_`, and an optional validation gate
tracks the best score and persists the ensemble on strict improvement.

Modelling choices:
* rationals (`ℚ`) stand for the Python floats in the control logic
  (learning rates, weight decay, scores); reals (`ℝ`) for the analytic
  parts (`cos`, `softmax`);
* counts (`epochs`, `len(train_loader)`, `n_estimators`, the iteration
  counter, `log_interval`) are naturals; Python `//` on naturals is `Nat`
  division and `%` is `Nat.mod`;
* the live estimator's parameter state is an opaque type `M`; training is
  an opaque map `est : ℕ → M` giving the parameters after `k` completed
  optimizer updates (`copy.deepcopy` of an immutable value is the value
  itself);
* the validation metric over the current snapshot list is an opaque map
  (`List M → ℚ`); `test_loader` presence is an `Option` of it;
* `utils.save` calls are recorded as `SaveEvent`s in the state, in call
  order — they are the persistence side effects the spec talks about;
* the optimizer / scheduler objects carry no information used by the
  counting, snapshot, or persistence logic, so `fit` models the control
  flow around them, while `_set_scheduler`'s multiplier and `_clip_lr`
  are modelled as standalone functions exactly following their source.
-/

namespace SnapshotEnsemble

/-- The distinct `ValueError`s `_validate_parameters` can raise, one
constructor per `raise` site, in source order. -/
inductive ValueError where
  | initLrNotPositive
  | lrClipNotTwoElements
  | lrClipOrder
  | weightDecayNegative
  | epochsNotPositive
  | logIntervalNotPositive
  | epochsNotMultiple
deriving DecidableEq, Repr

/-- `_BaseSnapshotEnsemble._validate_parameters`, lines 112-158.

`lr_clip` is `Option (List ℚ)`: `none` is Python `None`; `if lr_clip:`
is Python truthiness, so `some []` (an empty list/tuple) skips the
`lr_clip` checks exactly like `None`.  The `isinstance` check cannot fire
in this typed embedding.  Checks appear in source order. -/
def _validate_parameters (n_estimators : ℕ) (init_lr : ℚ)
    (lr_clip : Option (List ℚ)) (weight_decay : ℚ) (epochs : ℕ)
    (log_interval : ℕ) : Except ValueError Unit := do
  if ¬ 0 < init_lr then
    throw ValueError.initLrNotPositive
  match lr_clip with
  | none => pure ()
  | some l =>
    if l ≠ [] then do
      if l.length ≠ 2 then
        throw ValueError.lrClipNotTwoElements
      if ¬ l.getD 0 0 < l.getD 1 0 then
        throw ValueError.lrClipOrder
  if ¬ 0 ≤ weight_decay then
    throw ValueError.weightDecayNegative
  if ¬ 0 < epochs then
    throw ValueError.epochsNotPositive
  if ¬ 0 < log_interval then
    throw ValueError.logIntervalNotPositive
  if ¬ epochs % n_estimators = 0 then
    throw ValueError.epochsNotMultiple

deriving instance DecidableEq for Except

/-- A `utils.save(self, save_dir, ...)` call, tagged with where in `fit`
it happened: inside the validation gate of a given epoch, or the final
unconditional save after the training loop. -/
inductive SaveEvent where
  | atValidation (epoch : ℕ)
  | atEnd
deriving DecidableEq, Repr

/-- The mutable state of `SnapshotEnsembleClassifier.fit`: the snapshot
counter, the collected snapshots `estimators_`, `best_acc`, and the trace
of `utils.save` calls. -/
structure ClassifierFitState (M : Type) where
  counter : ℕ
  estimators : List M
  best_acc : ℚ
  saves : List SaveEvent
deriving DecidableEq, Repr

/-- The mutable state of `SnapshotEnsembleRegressor.fit`; `best_mse`
starts at `float("inf")`, modelled as `⊤ : WithTop ℚ`. -/
structure RegressorFitState (M : Type) where
  counter : ℕ
  estimators : List M
  best_mse : WithTop ℚ
  saves : List SaveEvent
deriving DecidableEq, Repr

/-- One iteration of the `for epoch in range(epochs)` body of
`SnapshotEnsembleClassifier.fit`, lines 260-337: the inner batch loop
(each batch steps the optimizer and scheduler and does `counter += 1`),
then the cycle-boundary check `counter % n_iters_per_estimator == 0`
appending `copy.deepcopy(estimator_)`, then the validation gate guarded
by `test_loader and counter % n_iters_per_estimator == 0`. -/
def classifierEpoch {M : Type} (est : ℕ → M) (test_loader : Option (List M → ℚ))
    (save_model : Bool) (train_loader_len n_iters_per_estimator : ℕ)
    (epoch : ℕ) (s : ClassifierFitState M) : ClassifierFitState M :=
  let s1 := (List.range train_loader_len).foldl
    (fun t _batch_idx => { t with counter := t.counter + 1 }) s
  let s2 := if s1.counter % n_iters_per_estimator = 0 then
      { s1 with estimators := s1.estimators ++ [est s1.counter] }
    else s1
  match test_loader with
  | none => s2
  | some acc_of =>
    if s2.counter % n_iters_per_estimator = 0 then
      let acc := acc_of s2.estimators
      if s2.best_acc < acc then
        { s2 with
          best_acc := acc,
          saves := if save_model then s2.saves ++ [SaveEvent.atValidation epoch]
            else s2.saves }
      else s2
    else s2

/-- One iteration of the epoch loop of `SnapshotEnsembleRegressor.fit`,
lines 419-486; identical control flow with the MSE gate `mse < best_mse`. -/
def regressorEpoch {M : Type} (est : ℕ → M) (test_loader : Option (List M → ℚ))
    (save_model : Bool) (train_loader_len n_iters_per_estimator : ℕ)
    (epoch : ℕ) (s : RegressorFitState M) : RegressorFitState M :=
  let s1 := (List.range train_loader_len).foldl
    (fun t _batch_idx => { t with counter := t.counter + 1 }) s
  let s2 := if s1.counter % n_iters_per_estimator = 0 then
      { s1 with estimators := s1.estimators ++ [est s1.counter] }
    else s1
  match test_loader with
  | none => s2
  | some mse_of =>
    if s2.counter % n_iters_per_estimator = 0 then
      let mse := mse_of s2.estimators
      if (mse : WithTop ℚ) < s2.best_mse then
        { s2 with
          best_mse := (mse : WithTop ℚ),
          saves := if save_model then s2.saves ++ [SaveEvent.atValidation epoch]
            else s2.saves }
      else s2
    else s2

/-- `SnapshotEnsembleClassifier.fit`, lines 220-340: parameter validation,
then `n_iters_per_estimator = epochs * len(train_loader) // n_estimators`,
the epoch loop from `counter = 0`, `best_acc = 0.`, empty `estimators_`,
and the final `if save_model and not test_loader: utils.save(...)`. -/
def SnapshotEnsembleClassifier.fit {M : Type} (est : ℕ → M) (n_estimators : ℕ)
    (train_loader_len : ℕ) (init_lr : ℚ) (lr_clip : Option (List ℚ))
    (weight_decay : ℚ) (epochs : ℕ) (log_interval : ℕ)
    (test_loader : Option (List M → ℚ)) (save_model : Bool) :
    Except ValueError (ClassifierFitState M) := do
  _validate_parameters n_estimators init_lr lr_clip weight_decay epochs
    log_interval
  let n_iters_per_estimator := epochs * train_loader_len / n_estimators
  let s0 : ClassifierFitState M := ⟨0, [], 0, []⟩
  let s := (List.range epochs).foldl
    (fun s epoch =>
      classifierEpoch est test_loader save_model train_loader_len
        n_iters_per_estimator epoch s) s0
  let s := if save_model && test_loader.isNone then
      { s with saves := s.saves ++ [SaveEvent.atEnd] }
    else s
  pure s

/-- `SnapshotEnsembleRegressor.fit`, lines 379-489, with
`best_mse = float("inf")`. -/
def SnapshotEnsembleRegressor.fit {M : Type} (est : ℕ → M) (n_estimators : ℕ)
    (train_loader_len : ℕ) (init_lr : ℚ) (lr_clip : Option (List ℚ))
    (weight_decay : ℚ) (epochs : ℕ) (log_interval : ℕ)
    (test_loader : Option (List M → ℚ)) (save_model : Bool) :
    Except ValueError (RegressorFitState M) := do
  _validate_parameters n_estimators init_lr lr_clip weight_decay epochs
    log_interval
  let n_iters_per_estimator := epochs * train_loader_len / n_estimators
  let s0 : RegressorFitState M := ⟨0, [], ⊤, []⟩
  let s := (List.range epochs).foldl
    (fun s epoch =>
      regressorEpoch est test_loader save_model train_loader_len
        n_iters_per_estimator epoch s) s0
  let s := if save_model && test_loader.isNone then
      { s with saves := s.saves ++ [SaveEvent.atEnd] }
    else s
  pure s

/-- `_BaseSnapshotEnsemble._forward`, lines 160-171: start from the zero
output of shape `(batch_size, n_outputs)` and accumulate
`estimator(X) / len(self.estimators_)` over the snapshots.  A batch is an
opaque input `X`; each snapshot maps it to a `(m × k)`-indexed real
output (`m` rows, `k = n_outputs`). -/
noncomputable def _forward {Input : Type} {m k : ℕ}
    (estimators : List (Input → Fin m → Fin k → ℝ)) (X : Input) :
    Fin m → Fin k → ℝ :=
  estimators.foldl
    (fun output estimator => fun i j =>
      output i j + estimator X i j / (estimators.length : ℝ))
    (fun _ _ => 0)

/-- Row-wise `F.softmax(_, dim=1)` on one output row. -/
noncomputable def softmax {k : ℕ} (v : Fin k → ℝ) : Fin k → ℝ :=
  fun j => Real.exp (v j) / ∑ j' : Fin k, Real.exp (v j')

/-- `SnapshotEnsembleClassifier.forward`, lines 211-214:
`F.softmax(self._forward(X), dim=1)`. -/
noncomputable def SnapshotEnsembleClassifier.forward {Input : Type} {m k : ℕ}
    (estimators : List (Input → Fin m → Fin k → ℝ)) (X : Input) :
    Fin m → Fin k → ℝ :=
  fun i => softmax (_forward estimators X i)

/-- `SnapshotEnsembleRegressor.forward`, lines 371-373: the raw average. -/
noncomputable def SnapshotEnsembleRegressor.forward {Input : Type} {m k : ℕ}
    (estimators : List (Input → Fin m → Fin k → ℝ)) (X : Input) :
    Fin m → Fin k → ℝ :=
  _forward estimators X

/-- The body of `_clip_lr`'s per-group loop, lines 178-182: raise to the
lower bound, then cap at the upper bound, sequentially. -/
def clipGroup (lr : ℚ) (lr_clip : List ℚ) : ℚ :=
  let lr := if lr < lr_clip.getD 0 0 then lr_clip.getD 0 0 else lr
  if lr_clip.getD 1 0 < lr then lr_clip.getD 1 0 else lr

/-- `_BaseSnapshotEnsemble._clip_lr`, lines 173-184: `if not lr_clip:
return optimizer` (Python truthiness: `None` or an empty list passes the
optimizer through untouched), else clip every parameter group's rate.
The optimizer is represented by its list of per-group learning rates. -/
def _clip_lr (param_groups : List ℚ) (lr_clip : Option (List ℚ)) : List ℚ :=
  match lr_clip with
  | none => param_groups
  | some l =>
    if l = [] then param_groups
    else param_groups.map (fun lr => clipGroup lr l)

/-- `T_M = math.ceil(n_iters / self.n_estimators)`, line 191. -/
def T_M (n_iters n_estimators : ℕ) : ℕ :=
  ⌈(n_iters : ℚ) / (n_estimators : ℚ)⌉₊

/-- The `lr_lambda` closure of `_set_scheduler`, lines 192-194:
`0.5 * (cos(pi * (iteration % T_M) / T_M) + 1)`. -/
noncomputable def lr_lambda (T : ℕ) (iteration : ℕ) : ℝ :=
  0.5 * (Real.cos (Real.pi * ((iteration % T : ℕ) : ℝ) / (T : ℝ)) + 1)

/-- `_BaseSnapshotEnsemble._set_scheduler`, lines 186-197, reduced to the
learning-rate multiplier the `LambdaLR` scheduler applies at each
iteration. -/
noncomputable def _set_scheduler (n_iters n_estimators : ℕ) : ℕ → ℝ :=
  lr_lambda (T_M n_iters n_estimators)

/-- The epoch loop of `SnapshotEnsembleClassifier.fit` run for `E` epochs
from state `s0` (the fold inside `fit`). -/
def classifierRun {M : Type} (est : ℕ → M) (test : Option (List M → ℚ))
    (sm : Bool) (B T E : ℕ) (s0 : ClassifierFitState M) : ClassifierFitState M :=
  (List.range E).foldl (fun s epoch => classifierEpoch est test sm B T epoch s) s0

/-- The epoch loop of `SnapshotEnsembleRegressor.fit` run for `E` epochs. -/
def regressorRun {M : Type} (est : ℕ → M) (test : Option (List M → ℚ))
    (sm : Bool) (B T E : ℕ) (s0 : RegressorFitState M) : RegressorFitState M :=
  (List.range E).foldl (fun s epoch => regressorEpoch est test sm B T epoch s) s0

lemma validate_ok_iff (n : ℕ) (ilr : ℚ) (c : Option (List ℚ)) (wd : ℚ) (E L : ℕ) :
    _validate_parameters n ilr c wd E L = Except.ok () ↔
      (0 < ilr ∧
       (∀ l, c = some l → l ≠ [] → l.length = 2 ∧ l.getD 0 0 < l.getD 1 0) ∧
       0 ≤ wd ∧ 0 < E ∧ 0 < L ∧ E % n = 0) := by
  rcases c with _ | l <;>
    simp only [_validate_parameters, bind, Except.bind, throw, throwThe,
      MonadExceptOf.throw, pure, Except.pure] <;>
    split_ifs <;> simp_all

lemma classifierBatchLoop {M : Type} (l : List ℕ) (s : ClassifierFitState M) :
    l.foldl (fun t _ => { t with counter := t.counter + 1 }) s
      = { s with counter := s.counter + l.length } := by
  induction l generalizing s with
  | nil => simp
  | cons a l ih =>
    rw [List.foldl_cons, ih]
    cases s
    simp only [ClassifierFitState.mk.injEq, List.length_cons, and_true, true_and]
    omega

lemma regressorBatchLoop {M : Type} (l : List ℕ) (s : RegressorFitState M) :
    l.foldl (fun t _ => { t with counter := t.counter + 1 }) s
      = { s with counter := s.counter + l.length } := by
  induction l generalizing s with
  | nil => simp
  | cons a l ih =>
    rw [List.foldl_cons, ih]
    cases s
    simp only [RegressorFitState.mk.injEq, List.length_cons, and_true, true_and]
    omega

lemma classifierEpoch_counter {M : Type} (est : ℕ → M) (test sm B T e s) :
    (classifierEpoch est test sm B T e s).counter = s.counter + B := by
  simp only [classifierEpoch, classifierBatchLoop, List.length_range]
  rcases test with _ | f <;> dsimp only <;> split_ifs <;> rfl

lemma regressorEpoch_counter {M : Type} (est : ℕ → M) (test sm B T e s) :
    (regressorEpoch est test sm B T e s).counter = s.counter + B := by
  simp only [regressorEpoch, regressorBatchLoop, List.length_range]
  rcases test with _ | f <;> dsimp only <;> split_ifs <;> rfl

lemma classifierEpoch_estimators {M : Type} (est : ℕ → M) (test sm B T e s) :
    (classifierEpoch est test sm B T e s).estimators
      = s.estimators ++
          (if (s.counter + B) % T = 0 then [est (s.counter + B)] else []) := by
  simp only [classifierEpoch, classifierBatchLoop, List.length_range]
  rcases test with _ | f <;> dsimp only <;> split_ifs <;> simp

lemma regressorEpoch_estimators {M : Type} (est : ℕ → M) (test sm B T e s) :
    (regressorEpoch est test sm B T e s).estimators
      = s.estimators ++
          (if (s.counter + B) % T = 0 then [est (s.counter + B)] else []) := by
  simp only [regressorEpoch, regressorBatchLoop, List.length_range]
  rcases test with _ | f <;> dsimp only <;> split_ifs <;> simp

lemma classifierEpoch_none_gate {M : Type} (est : ℕ → M) (sm B T e s) :
    (classifierEpoch est none sm B T e s).best_acc = s.best_acc ∧
      (classifierEpoch est none sm B T e s).saves = s.saves := by
  simp only [classifierEpoch, classifierBatchLoop, List.length_range]
  split_ifs <;> simp

lemma regressorEpoch_none_gate {M : Type} (est : ℕ → M) (sm B T e s) :
    (regressorEpoch est none sm B T e s).best_mse = s.best_mse ∧
      (regressorEpoch est none sm B T e s).saves = s.saves := by
  simp only [regressorEpoch, regressorBatchLoop, List.length_range]
  split_ifs <;> simp

lemma classifierEpoch_gate {M : Type} (est : ℕ → M) (f : List M → ℚ)
    (sm : Bool) (B T e : ℕ) (s : ClassifierFitState M) :
    ((classifierEpoch est (some f) sm B T e s).best_acc = s.best_acc ∧
       (classifierEpoch est (some f) sm B T e s).saves = s.saves) ∨
      ((s.counter + B) % T = 0 ∧
       s.best_acc < f (classifierEpoch est (some f) sm B T e s).estimators ∧
       (classifierEpoch est (some f) sm B T e s).best_acc
         = f (classifierEpoch est (some f) sm B T e s).estimators ∧
       (classifierEpoch est (some f) sm B T e s).saves
         = s.saves ++ (if sm then [SaveEvent.atValidation e] else [])) := by
  simp only [classifierEpoch, classifierBatchLoop, List.length_range]
  split_ifs <;> simp_all

lemma regressorEpoch_gate {M : Type} (est : ℕ → M) (f : List M → ℚ)
    (sm : Bool) (B T e : ℕ) (s : RegressorFitState M) :
    ((regressorEpoch est (some f) sm B T e s).best_mse = s.best_mse ∧
       (regressorEpoch est (some f) sm B T e s).saves = s.saves) ∨
      ((s.counter + B) % T = 0 ∧
       ((f (regressorEpoch est (some f) sm B T e s).estimators : ℚ) : WithTop ℚ)
           < s.best_mse ∧
       (regressorEpoch est (some f) sm B T e s).best_mse
         = ((f (regressorEpoch est (some f) sm B T e s).estimators : ℚ) : WithTop ℚ) ∧
       (regressorEpoch est (some f) sm B T e s).saves
         = s.saves ++ (if sm then [SaveEvent.atValidation e] else [])) := by
  simp only [regressorEpoch, regressorBatchLoop, List.length_range]
  split_ifs <;> simp_all

lemma classifierRun_succ {M : Type} (est : ℕ → M) (test sm B T E s0) :
    classifierRun est test sm B T (E + 1) s0
      = classifierEpoch est test sm B T E (classifierRun (M := M) est test sm B T E s0) := by
  simp [classifierRun, List.range_succ]

lemma regressorRun_succ {M : Type} (est : ℕ → M) (test sm B T E s0) :
    regressorRun est test sm B T (E + 1) s0
      = regressorEpoch est test sm B T E (regressorRun (M := M) est test sm B T E s0) := by
  simp [regressorRun, List.range_succ]

lemma classifierRun_counter {M : Type} (est : ℕ → M) (test sm B T E s0) :
    (classifierRun (M := M) est test sm B T E s0).counter = s0.counter + E * B := by
  induction E with
  | zero => simp [classifierRun]
  | succ E ih =>
    rw [classifierRun_succ, classifierEpoch_counter, ih, Nat.succ_mul, Nat.add_assoc]

lemma regressorRun_counter {M : Type} (est : ℕ → M) (test sm B T E s0) :
    (regressorRun (M := M) est test sm B T E s0).counter = s0.counter + E * B := by
  induction E with
  | zero => simp [regressorRun]
  | succ E ih =>
    rw [regressorRun_succ, regressorEpoch_counter, ih, Nat.succ_mul, Nat.add_assoc]

lemma classifierRun_estimators {M : Type} (est : ℕ → M) (test sm B T E)
    (b : ℚ) (v : List SaveEvent) :
    (classifierRun est test sm B T E ⟨0, [], b, v⟩).estimators
      = (List.range E).filterMap
          (fun e => if ((e + 1) * B) % T = 0 then some (est ((e + 1) * B)) else none) := by
  induction E with
  | zero => simp [classifierRun]
  | succ E ih =>
    rw [classifierRun_succ, classifierEpoch_estimators, ih, List.range_succ,
      List.filterMap_append]
    have hc : (classifierRun est test sm B T E
        (⟨0, [], b, v⟩ : ClassifierFitState M)).counter = E * B := by
      simp [classifierRun_counter]
    rw [hc]
    simp only [List.filterMap_cons, List.filterMap_nil, Nat.succ_mul]
    split_ifs <;> simp

lemma regressorRun_estimators {M : Type} (est : ℕ → M) (test sm B T E)
    (b : WithTop ℚ) (v : List SaveEvent) :
    (regressorRun est test sm B T E ⟨0, [], b, v⟩).estimators
      = (List.range E).filterMap
          (fun e => if ((e + 1) * B) % T = 0 then some (est ((e + 1) * B)) else none) := by
  induction E with
  | zero => simp [regressorRun]
  | succ E ih =>
    rw [regressorRun_succ, regressorEpoch_estimators, ih, List.range_succ,
      List.filterMap_append]
    have hc : (regressorRun est test sm B T E
        (⟨0, [], b, v⟩ : RegressorFitState M)).counter = E * B := by
      simp [regressorRun_counter]
    rw [hc]
    simp only [List.filterMap_cons, List.filterMap_nil, Nat.succ_mul]
    split_ifs <;> simp

lemma classifierRun_none_saves {M : Type} (est : ℕ → M) (sm B T E s0) :
    (classifierRun (M := M) est none sm B T E s0).saves = s0.saves := by
  induction E with
  | zero => simp [classifierRun]
  | succ E ih => rw [classifierRun_succ, (classifierEpoch_none_gate _ _ _ _ _ _).2, ih]

lemma regressorRun_none_saves {M : Type} (est : ℕ → M) (sm B T E s0) :
    (regressorRun (M := M) est none sm B T E s0).saves = s0.saves := by
  induction E with
  | zero => simp [regressorRun]
  | succ E ih => rw [regressorRun_succ, (regressorEpoch_none_gate _ _ _ _ _ _).2, ih]

lemma classifierEpoch_best_le {M : Type} (est : ℕ → M) (f : List M → ℚ)
    (sm : Bool) (B T e : ℕ) (s : ClassifierFitState M) :
    s.best_acc ≤ (classifierEpoch est (some f) sm B T e s).best_acc := by
  rcases classifierEpoch_gate est f sm B T e s with ⟨h, _⟩ | ⟨_, hlt, heq, _⟩
  · rw [h]
  · rw [heq]; exact le_of_lt hlt

lemma regressorEpoch_best_le {M : Type} (est : ℕ → M) (f : List M → ℚ)
    (sm : Bool) (B T e : ℕ) (s : RegressorFitState M) :
    (regressorEpoch est (some f) sm B T e s).best_mse ≤ s.best_mse := by
  rcases regressorEpoch_gate est f sm B T e s with ⟨h, _⟩ | ⟨_, hlt, heq, _⟩
  · rw [h]
  · rw [heq]; exact le_of_lt hlt

lemma classifierRun_best_le {M : Type} (est : ℕ → M) (f : List M → ℚ)
    (sm : Bool) (B T E : ℕ) (s0 : ClassifierFitState M) :
    s0.best_acc ≤ (classifierRun est (some f) sm B T E s0).best_acc := by
  induction E with
  | zero => simp [classifierRun]
  | succ E ih => rw [classifierRun_succ]; exact le_trans ih (classifierEpoch_best_le _ _ _ _ _ _ _)

lemma regressorRun_best_le {M : Type} (est : ℕ → M) (f : List M → ℚ)
    (sm : Bool) (B T E : ℕ) (s0 : RegressorFitState M) :
    (regressorRun est (some f) sm B T E s0).best_mse ≤ s0.best_mse := by
  induction E with
  | zero => simp [regressorRun]
  | succ E ih => rw [regressorRun_succ]; exact le_trans (regressorEpoch_best_le _ _ _ _ _ _ _) ih

lemma classifierFit_ok_iff {M : Type} (est : ℕ → M) (n B : ℕ) (ilr : ℚ)
    (c : Option (List ℚ)) (wd : ℚ) (E L : ℕ) (test : Option (List M → ℚ))
    (sm : Bool) (s : ClassifierFitState M) :
    SnapshotEnsembleClassifier.fit est n B ilr c wd E L test sm = Except.ok s ↔
      (_validate_parameters n ilr c wd E L = Except.ok () ∧
       s = (if sm && test.isNone then
              { classifierRun est test sm B (E * B / n) E ⟨0, [], 0, []⟩ with
                saves := (classifierRun est test sm B (E * B / n) E
                    (⟨0, [], 0, []⟩ : ClassifierFitState M)).saves ++ [SaveEvent.atEnd] }
            else classifierRun est test sm B (E * B / n) E ⟨0, [], 0, []⟩)) := by
  cases hv : _validate_parameters n ilr c wd E L with
  | error e =>
    simp [SnapshotEnsembleClassifier.fit, hv, bind, Except.bind]
  | ok u =>
    cases u
    simp only [SnapshotEnsembleClassifier.fit, hv, bind, Except.bind, pure,
      Except.pure, classifierRun, Except.ok.injEq, true_and]
    exact eq_comm

lemma regressorFit_ok_iff {M : Type} (est : ℕ → M) (n B : ℕ) (ilr : ℚ)
    (c : Option (List ℚ)) (wd : ℚ) (E L : ℕ) (test : Option (List M → ℚ))
    (sm : Bool) (s : RegressorFitState M) :
    SnapshotEnsembleRegressor.fit est n B ilr c wd E L test sm = Except.ok s ↔
      (_validate_parameters n ilr c wd E L = Except.ok () ∧
       s = (if sm && test.isNone then
              { regressorRun est test sm B (E * B / n) E ⟨0, [], ⊤, []⟩ with
                saves := (regressorRun est test sm B (E * B / n) E
                    (⟨0, [], ⊤, []⟩ : RegressorFitState M)).saves ++ [SaveEvent.atEnd] }
            else regressorRun est test sm B (E * B / n) E ⟨0, [], ⊤, []⟩)) := by
  cases hv : _validate_parameters n ilr c wd E L with
  | error e =>
    simp [SnapshotEnsembleRegressor.fit, hv, bind, Except.bind]
  | ok u =>
    cases u
    simp only [SnapshotEnsembleRegressor.fit, hv, bind, Except.bind, pure,
      Except.pure, regressorRun, Except.ok.injEq, true_and]
    exact eq_comm

lemma filterMap_boundary_last {M : Type} (f : ℕ → M) (k c : ℕ) (hk : 0 < k)
    (hc : c % k = 0) :
    (List.range k).filterMap
        (fun j => if (c + j + 1) % k = 0 then some (f (c + j + 1)) else none)
      = [f (c + k)] := by
  obtain ⟨k', rfl⟩ : ∃ k', k = k' + 1 := ⟨k - 1, by omega⟩
  obtain ⟨q, rfl⟩ : ∃ q, c = (k' + 1) * q :=
    (Nat.dvd_of_mod_eq_zero hc).elim (fun q hq => ⟨q, hq⟩)
  rw [List.range_succ, List.filterMap_append]
  have h1 : (List.range k').filterMap
      (fun j => if ((k' + 1) * q + j + 1) % (k' + 1) = 0
        then some (f ((k' + 1) * q + j + 1)) else none) = [] := by
    rw [List.filterMap_eq_nil_iff]
    intro j hj
    rw [List.mem_range] at hj
    have hmod : ((k' + 1) * q + j + 1) % (k' + 1) = j + 1 := by
      rw [Nat.add_assoc, Nat.mul_add_mod]
      exact Nat.mod_eq_of_lt (by omega)
    simp [hmod]
  have h2 : ((k' + 1) * q + k' + 1) % (k' + 1) = 0 := by
    have : (k' + 1) * q + k' + 1 = (k' + 1) * (q + 1) := by ring
    rw [this, Nat.mul_mod_right]
  rw [h1]
  simp [h2, Nat.add_assoc]

lemma range_filterMap_boundary {M : Type} (f : ℕ → M) (n k : ℕ) (hk : 0 < k) :
    (List.range (n * k)).filterMap
        (fun e => if (e + 1) % k = 0 then some (f (e + 1)) else none)
      = (List.range n).map (fun i => f ((i + 1) * k)) := by
  induction n with
  | zero => simp
  | succ n ih =>
    have hsplit : (n + 1) * k = n * k + k := Nat.succ_mul n k
    rw [hsplit, List.range_add, List.filterMap_append, ih, List.filterMap_map,
      List.range_succ, List.map_append]
    congr 1
    simp only [Function.comp_def]
    rw [filterMap_boundary_last f k (n * k) hk (Nat.mul_mod_left n k)]
    simp [hsplit]

lemma boundary_cond_iff (e B k : ℕ) (hB : 0 < B) :
    ((e + 1) * B) % (k * B) = 0 ↔ (e + 1) % k = 0 := by
  rw [Nat.mul_mod_mul_right, Nat.mul_eq_zero]
  omega

lemma classifierRun_estimators_valid {M : Type} (est : ℕ → M)
    (test : Option (List M → ℚ)) (sm : Bool) (B n E : ℕ) (b : ℚ)
    (v : List SaveEvent) (hB : 0 < B) (hn : 0 < n) (hE : 0 < E)
    (hdvd : E % n = 0) :
    (classifierRun est test sm B (E * B / n) E ⟨0, [], b, v⟩).estimators
      = (List.range n).map (fun i => est ((i + 1) * (E * B / n))) := by
  set k := E / n with hk
  have hEnk : E = n * k := (Nat.mul_div_cancel' (Nat.dvd_of_mod_eq_zero hdvd)).symm
  have hkpos : 0 < k := by
    rcases Nat.eq_zero_or_pos k with h | h
    · rw [h, Nat.mul_zero] at hEnk; omega
    · exact h
  have hT : E * B / n = k * B := by
    rw [hEnk, Nat.mul_assoc, Nat.mul_div_cancel_left _ hn]
  rw [classifierRun_estimators, hT]
  have hcong : ∀ e ∈ List.range E,
      (if ((e + 1) * B) % (k * B) = 0 then some (est ((e + 1) * B)) else none)
        = (if (e + 1) % k = 0 then some ((fun x => est (x * B)) (e + 1)) else none) := by
    intro e _
    exact if_congr (boundary_cond_iff e B k hB) rfl rfl
  rw [List.filterMap_congr hcong, hEnk,
    range_filterMap_boundary (fun x => est (x * B)) n k hkpos]
  simp [Nat.mul_assoc]

lemma regressorRun_estimators_valid {M : Type} (est : ℕ → M)
    (test : Option (List M → ℚ)) (sm : Bool) (B n E : ℕ) (b : WithTop ℚ)
    (v : List SaveEvent) (hB : 0 < B) (hn : 0 < n) (hE : 0 < E)
    (hdvd : E % n = 0) :
    (regressorRun est test sm B (E * B / n) E ⟨0, [], b, v⟩).estimators
      = (List.range n).map (fun i => est ((i + 1) * (E * B / n))) := by
  set k := E / n with hk
  have hEnk : E = n * k := (Nat.mul_div_cancel' (Nat.dvd_of_mod_eq_zero hdvd)).symm
  have hkpos : 0 < k := by
    rcases Nat.eq_zero_or_pos k with h | h
    · rw [h, Nat.mul_zero] at hEnk; omega
    · exact h
  have hT : E * B / n = k * B := by
    rw [hEnk, Nat.mul_assoc, Nat.mul_div_cancel_left _ hn]
  rw [regressorRun_estimators, hT]
  have hcong : ∀ e ∈ List.range E,
      (if ((e + 1) * B) % (k * B) = 0 then some (est ((e + 1) * B)) else none)
        = (if (e + 1) % k = 0 then some ((fun x => est (x * B)) (e + 1)) else none) := by
    intro e _
    exact if_congr (boundary_cond_iff e B k hB) rfl rfl
  rw [List.filterMap_congr hcong, hEnk,
    range_filterMap_boundary (fun x => est (x * B)) n k hkpos]
  simp [Nat.mul_assoc]

/-- C1: for every valid configuration `(epochs, batches_per_epoch, n_cycles)`
with `epochs * batches_per_epoch` divisible by `n_cycles`, a full
(non-erroring) run of `fit` — classifier or regressor — ends with exactly
`n_cycles` snapshots in `estimators_`, one per cycle boundary (the snapshot
of cycle `i` is the deep copy taken at iteration `(i+1) *
n_iters_per_estimator`), in cycle-completion order. -/
theorem C1_snapshot_count {M : Type} (est : ℕ → M) (n B : ℕ) (ilr : ℚ)
    (c : Option (List ℚ)) (wd : ℚ) (E L : ℕ)
    (testC testR : Option (List M → ℚ)) (smC smR : Bool)
    (sC : ClassifierFitState M) (sR : RegressorFitState M)
    (hB : 0 < B) (hn : 0 < n) (hprod : (E * B) % n = 0)
    (hC : SnapshotEnsembleClassifier.fit est n B ilr c wd E L testC smC
      = Except.ok sC)
    (hR : SnapshotEnsembleRegressor.fit est n B ilr c wd E L testR smR
      = Except.ok sR) :
    sC.estimators = (List.range n).map (fun i => est ((i + 1) * (E * B / n)))
      ∧ sC.estimators.length = n
      ∧ sR.estimators = (List.range n).map (fun i => est ((i + 1) * (E * B / n)))
      ∧ sR.estimators.length = n := by
  obtain ⟨hv, rfl⟩ := (classifierFit_ok_iff est n B ilr c wd E L testC smC sC).mp hC
  obtain ⟨-, rfl⟩ := (regressorFit_ok_iff est n B ilr c wd E L testR smR sR).mp hR
  obtain ⟨-, -, -, hE, -, hdvd⟩ := (validate_ok_iff n ilr c wd E L).mp hv
  have hCsave : (if smC && testC.isNone then
      { classifierRun est testC smC B (E * B / n) E ⟨0, [], 0, []⟩ with
        saves := (classifierRun est testC smC B (E * B / n) E
            (⟨0, [], 0, []⟩ : ClassifierFitState M)).saves ++ [SaveEvent.atEnd] }
      else classifierRun est testC smC B (E * B / n) E ⟨0, [], 0, []⟩).estimators
        = (classifierRun est testC smC B (E * B / n) E
            (⟨0, [], 0, []⟩ : ClassifierFitState M)).estimators := by
    split <;> rfl
  have hRsave : (if smR && testR.isNone then
      { regressorRun est testR smR B (E * B / n) E ⟨0, [], ⊤, []⟩ with
        saves := (regressorRun est testR smR B (E * B / n) E
            (⟨0, [], ⊤, []⟩ : RegressorFitState M)).saves ++ [SaveEvent.atEnd] }
      else regressorRun est testR smR B (E * B / n) E ⟨0, [], ⊤, []⟩).estimators
        = (regressorRun est testR smR B (E * B / n) E
            (⟨0, [], ⊤, []⟩ : RegressorFitState M)).estimators := by
    split <;> rfl
  rw [hCsave, hRsave,
    classifierRun_estimators_valid est testC smC B n E 0 [] hB hn hE hdvd,
    regressorRun_estimators_valid est testR smR B n E ⊤ [] hB hn hE hdvd]
  simp

/-- Witness for C1 at `epochs = 2`, `batches_per_epoch = 3`,
`n_cycles = 2`: the run succeeds and collects the two snapshots taken at
iterations 3 and 6. -/
theorem C1_snapshot_count_witness :
    0 < 3 ∧ 0 < 2 ∧ (2 * 3) % 2 = 0 ∧
    SnapshotEnsembleClassifier.fit (fun x => x) 2 3 1 none 0 2 1 none true
      = Except.ok (⟨6, [3, 6], 0, [SaveEvent.atEnd]⟩ : ClassifierFitState ℕ) ∧
    SnapshotEnsembleRegressor.fit (fun x => x) 2 3 1 none 0 2 1 none true
      = Except.ok (⟨6, [3, 6], ⊤, [SaveEvent.atEnd]⟩ : RegressorFitState ℕ) ∧
    ((⟨6, [3, 6], 0, [SaveEvent.atEnd]⟩ : ClassifierFitState ℕ).estimators
        = (List.range 2).map (fun i => (i + 1) * (2 * 3 / 2))
      ∧ (⟨6, [3, 6], 0, [SaveEvent.atEnd]⟩ : ClassifierFitState ℕ).estimators.length = 2
      ∧ (⟨6, [3, 6], ⊤, [SaveEvent.atEnd]⟩ : RegressorFitState ℕ).estimators
        = (List.range 2).map (fun i => (i + 1) * (2 * 3 / 2))
      ∧ (⟨6, [3, 6], ⊤, [SaveEvent.atEnd]⟩ : RegressorFitState ℕ).estimators.length = 2) :=
  ⟨by decide, by decide, by decide, by rfl, by rfl,
    C1_snapshot_count (fun x => x) 2 3 1 none 0 2 1 none none true true _ _
      (by decide) (by decide) (by decide) (by rfl) (by rfl)⟩

/-- C2 counterexample: with `epochs = 3`, `batches_per_epoch = 2`,
`n_cycles = 2` the product `epochs * batches_per_epoch = 6` is divisible
by `n_cycles`, and every other parameter is well formed, yet
`_validate_parameters` raises the divisibility error — the code divides
`epochs` alone by `n_estimators`, refuting the claim that such a
configuration passes the divisibility check. -/
theorem C2_validation_counterexample :
    (3 * 2) % 2 = 0 ∧
    _validate_parameters 2 1 none 0 3 1
      = Except.error ValueError.epochsNotMultiple :=
  ⟨by decide, by decide⟩

/-- C2 (amended): `_validate_parameters` accepts a configuration exactly
when the initial learning rate is positive, the weight decay nonnegative,
the epoch count and log interval positive, any supplied non-empty
`lr_clip` is a two-element list with lower bound < upper bound, and
`epochs` itself (not `epochs * batches_per_epoch`) is divisible by
`n_estimators`; equivalently it raises exactly when one of those fails. -/
theorem C2_validation_exactly (n : ℕ) (ilr : ℚ) (c : Option (List ℚ))
    (wd : ℚ) (E L : ℕ) (hn : 0 < n) :
    _validate_parameters n ilr c wd E L = Except.ok () ↔
      (0 < ilr ∧ 0 ≤ wd ∧ 0 < E ∧ 0 < L ∧
       (∀ l, c = some l → l ≠ [] → (l.length = 2 ∧ l.getD 0 0 < l.getD 1 0)) ∧
       E % n = 0) := by
  rw [validate_ok_iff]
  tauto

/-- Witness for C2's amended theorem at a concrete accepted
configuration. -/
theorem C2_validation_exactly_witness :
    0 < 2 ∧
    (_validate_parameters 2 (1 / 10) (some [1 / 100, 1]) 0 4 1 = Except.ok () ↔
      (0 < (1 / 10 : ℚ) ∧ 0 ≤ (0 : ℚ) ∧ 0 < 4 ∧ 0 < 1 ∧
       (∀ l, (some [1 / 100, 1] : Option (List ℚ)) = some l → l ≠ [] →
         (l.length = 2 ∧ l.getD 0 0 < l.getD 1 0)) ∧
       4 % 2 = 0)) :=
  ⟨by decide, C2_validation_exactly 2 (1 / 10) (some [1 / 100, 1]) 0 4 1 (by decide)⟩

/-- C3: the cycle-boundary check runs once per completed epoch on the
counter value reached at the end of that epoch's batches (the condition
is `(counter + batches) % n_iters_per_estimator == 0`), so each epoch
appends at most one snapshot regardless of how `n_iters_per_estimator`
compares to the batch count; over a full `fit` run the counter is
`epochs * batches` and at most `epochs` snapshots exist. -/
theorem C3_boundary_once_per_epoch {M : Type} (est : ℕ → M)
    (test : Option (List M → ℚ)) (sm : Bool) (B T e : ℕ)
    (s : ClassifierFitState M) (s' : RegressorFitState M) :
    (classifierEpoch est test sm B T e s).counter = s.counter + B ∧
    (classifierEpoch est test sm B T e s).estimators
      = s.estimators ++
          (if (s.counter + B) % T = 0 then [est (s.counter + B)] else []) ∧
    (classifierEpoch est test sm B T e s).estimators.length
      ≤ s.estimators.length + 1 ∧
    (regressorEpoch est test sm B T e s').counter = s'.counter + B ∧
    (regressorEpoch est test sm B T e s').estimators
      = s'.estimators ++
          (if (s'.counter + B) % T = 0 then [est (s'.counter + B)] else []) ∧
    (regressorEpoch est test sm B T e s').estimators.length
      ≤ s'.estimators.length + 1 ∧
    (∀ (n E L : ℕ) (ilr : ℚ) (c : Option (List ℚ)) (wd : ℚ)
        (sC : ClassifierFitState M),
      SnapshotEnsembleClassifier.fit est n B ilr c wd E L test sm
          = Except.ok sC →
        sC.counter = E * B ∧ sC.estimators.length ≤ E) ∧
    (∀ (n E L : ℕ) (ilr : ℚ) (c : Option (List ℚ)) (wd : ℚ)
        (sR : RegressorFitState M),
      SnapshotEnsembleRegressor.fit est n B ilr c wd E L test sm
          = Except.ok sR →
        sR.counter = E * B ∧ sR.estimators.length ≤ E) := by
  refine ⟨classifierEpoch_counter est test sm B T e s,
    classifierEpoch_estimators est test sm B T e s, ?_,
    regressorEpoch_counter est test sm B T e s',
    regressorEpoch_estimators est test sm B T e s', ?_, ?_, ?_⟩
  · rw [classifierEpoch_estimators]
    split_ifs <;> simp
  · rw [regressorEpoch_estimators]
    split_ifs <;> simp
  · intro n E L ilr c wd sC hC
    obtain ⟨-, rfl⟩ :=
      (classifierFit_ok_iff est n B ilr c wd E L test sm sC).mp hC
    have hrc : ∀ s0 : ClassifierFitState M,
        (if sm && test.isNone then
          { classifierRun est test sm B (E * B / n) E s0 with
            saves := (classifierRun est test sm B (E * B / n) E s0).saves
              ++ [SaveEvent.atEnd] }
         else classifierRun est test sm B (E * B / n) E s0)
          = { classifierRun est test sm B (E * B / n) E s0 with
              saves := (if sm && test.isNone then
                (classifierRun est test sm B (E * B / n) E s0).saves
                  ++ [SaveEvent.atEnd]
                else (classifierRun est test sm B (E * B / n) E s0).saves) } := by
      intro s0
      split <;> simp
    rw [hrc]
    constructor
    · rw [show ({ classifierRun est test sm B (E * B / n) E ⟨0, [], 0, []⟩ with
          saves := _ } : ClassifierFitState M).counter
          = (classifierRun est test sm B (E * B / n) E
              (⟨0, [], 0, []⟩ : ClassifierFitState M)).counter from rfl,
        classifierRun_counter]
      simp
    · rw [show ({ classifierRun est test sm B (E * B / n) E ⟨0, [], 0, []⟩ with
          saves := _ } : ClassifierFitState M).estimators
          = (classifierRun est test sm B (E * B / n) E
              (⟨0, [], 0, []⟩ : ClassifierFitState M)).estimators from rfl,
        classifierRun_estimators]
      calc ((List.range E).filterMap fun e =>
              if (e + 1) * B % (E * B / n) = 0 then some (est ((e + 1) * B))
              else none).length
          ≤ (List.range E).length := List.length_filterMap_le _ _
        _ = E := List.length_range E
  · intro n E L ilr c wd sR hR
    obtain ⟨-, rfl⟩ :=
      (regressorFit_ok_iff est n B ilr c wd E L test sm sR).mp hR
    have hrr : ∀ s0 : RegressorFitState M,
        (if sm && test.isNone then
          { regressorRun est test sm B (E * B / n) E s0 with
            saves := (regressorRun est test sm B (E * B / n) E s0).saves
              ++ [SaveEvent.atEnd] }
         else regressorRun est test sm B (E * B / n) E s0)
          = { regressorRun est test sm B (E * B / n) E s0 with
              saves := (if sm && test.isNone then
                (regressorRun est test sm B (E * B / n) E s0).saves
                  ++ [SaveEvent.atEnd]
                else (regressorRun est test sm B (E * B / n) E s0).saves) } := by
      intro s0
      split <;> simp
    rw [hrr]
    constructor
    · rw [show ({ regressorRun est test sm B (E * B / n) E ⟨0, [], ⊤, []⟩ with
          saves := _ } : RegressorFitState M).counter
          = (regressorRun est test sm B (E * B / n) E
              (⟨0, [], ⊤, []⟩ : RegressorFitState M)).counter from rfl,
        regressorRun_counter]
      simp
    · rw [show ({ regressorRun est test sm B (E * B / n) E ⟨0, [], ⊤, []⟩ with
          saves := _ } : RegressorFitState M).estimators
          = (regressorRun est test sm B (E * B / n) E
              (⟨0, [], ⊤, []⟩ : RegressorFitState M)).estimators from rfl,
        regressorRun_estimators]
      calc ((List.range E).filterMap fun e =>
              if (e + 1) * B % (E * B / n) = 0 then some (est ((e + 1) * B))
              else none).length
          ≤ (List.range E).length := List.length_filterMap_le _ _
        _ = E := List.length_range E

/-- Witness for C3 on a concrete run (`epochs = 2`, `batches = 2`,
`n_cycles = 2`). -/
theorem C3_boundary_once_per_epoch_witness :
    SnapshotEnsembleClassifier.fit (fun x => x) 2 2 1 none 0 2 1 none true
        = Except.ok (⟨4, [2, 4], 0, [SaveEvent.atEnd]⟩ : ClassifierFitState ℕ) ∧
    ((⟨4, [2, 4], 0, [SaveEvent.atEnd]⟩ : ClassifierFitState ℕ).counter = 2 * 2 ∧
     (⟨4, [2, 4], 0, [SaveEvent.atEnd]⟩ : ClassifierFitState ℕ).estimators.length
       ≤ 2) :=
  ⟨by rfl,
    (C3_boundary_once_per_epoch (M := ℕ) (fun x => x) none true 2 2 0
        ⟨0, [], 0, []⟩ ⟨0, [], ⊤, []⟩).2.2.2.2.2.2.1 2 2 1 1 none 0 _ (by rfl)⟩

/-- C4: across a run with a validation loader, each epoch leaves
`best_acc` (resp. `best_mse`) unchanged with no save, or — only at a
cycle boundary, only on strict improvement — sets it to the new
validation score and performs at most one save (`atValidation`, emitted
only when `save_model`); hence the BestScore sequence is monotonically
non-worsening from any point of the run onwards. -/
theorem C4_validation_gate {M : Type} (est : ℕ → M) (f : List M → ℚ)
    (sm : Bool) (B T E e : ℕ) (s s0 : ClassifierFitState M)
    (s' s0' : RegressorFitState M) :
    s.best_acc ≤ (classifierEpoch est (some f) sm B T e s).best_acc ∧
    (((classifierEpoch est (some f) sm B T e s).best_acc = s.best_acc ∧
      (classifierEpoch est (some f) sm B T e s).saves = s.saves) ∨
     ((s.counter + B) % T = 0 ∧
      s.best_acc < f (classifierEpoch est (some f) sm B T e s).estimators ∧
      (classifierEpoch est (some f) sm B T e s).best_acc
        = f (classifierEpoch est (some f) sm B T e s).estimators ∧
      (classifierEpoch est (some f) sm B T e s).saves
        = s.saves ++ (if sm then [SaveEvent.atValidation e] else []))) ∧
    s0.best_acc ≤ (classifierRun est (some f) sm B T E s0).best_acc ∧
    (regressorEpoch est (some f) sm B T e s').best_mse ≤ s'.best_mse ∧
    (((regressorEpoch est (some f) sm B T e s').best_mse = s'.best_mse ∧
      (regressorEpoch est (some f) sm B T e s').saves = s'.saves) ∨
     ((s'.counter + B) % T = 0 ∧
      ((f (regressorEpoch est (some f) sm B T e s').estimators : ℚ) : WithTop ℚ)
          < s'.best_mse ∧
      (regressorEpoch est (some f) sm B T e s').best_mse
        = ((f (regressorEpoch est (some f) sm B T e s').estimators : ℚ) : WithTop ℚ) ∧
      (regressorEpoch est (some f) sm B T e s').saves
        = s'.saves ++ (if sm then [SaveEvent.atValidation e] else []))) ∧
    (regressorRun est (some f) sm B T E s0').best_mse ≤ s0'.best_mse :=
  ⟨classifierEpoch_best_le est f sm B T e s,
    classifierEpoch_gate est f sm B T e s,
    classifierRun_best_le est f sm B T E s0,
    regressorEpoch_best_le est f sm B T e s',
    regressorEpoch_gate est f sm B T e s',
    regressorRun_best_le est f sm B T E s0'⟩

/-- C7: a `fit` run with no validation loader and `save_model = True`
performs exactly one save, the unconditional one after the last epoch's
batches, and none anywhere else (the save trace is exactly
`[atEnd]`). -/
theorem C7_unconditional_final_save {M : Type} (est : ℕ → M) (n B : ℕ)
    (ilr : ℚ) (c : Option (List ℚ)) (wd : ℚ) (E L : ℕ)
    (sC : ClassifierFitState M) (sR : RegressorFitState M)
    (hC : SnapshotEnsembleClassifier.fit est n B ilr c wd E L none true
      = Except.ok sC)
    (hR : SnapshotEnsembleRegressor.fit est n B ilr c wd E L none true
      = Except.ok sR) :
    sC.saves = [SaveEvent.atEnd] ∧ sR.saves = [SaveEvent.atEnd] := by
  obtain ⟨-, rfl⟩ := (classifierFit_ok_iff est n B ilr c wd E L none true sC).mp hC
  obtain ⟨-, rfl⟩ := (regressorFit_ok_iff est n B ilr c wd E L none true sR).mp hR
  simp [classifierRun_none_saves, regressorRun_none_saves]

/-- Witness for C7 on a concrete run without a validation loader. -/
theorem C7_unconditional_final_save_witness :
    SnapshotEnsembleClassifier.fit (fun x => x) 1 2 1 none 0 1 1 none true
        = Except.ok (⟨2, [2], 0, [SaveEvent.atEnd]⟩ : ClassifierFitState ℕ) ∧
    SnapshotEnsembleRegressor.fit (fun x => x) 1 2 1 none 0 1 1 none true
        = Except.ok (⟨2, [2], ⊤, [SaveEvent.atEnd]⟩ : RegressorFitState ℕ) ∧
    ((⟨2, [2], 0, [SaveEvent.atEnd]⟩ : ClassifierFitState ℕ).saves
        = [SaveEvent.atEnd] ∧
     (⟨2, [2], ⊤, [SaveEvent.atEnd]⟩ : RegressorFitState ℕ).saves
        = [SaveEvent.atEnd]) :=
  ⟨by rfl, by rfl,
    C7_unconditional_final_save (fun x => x) 1 2 1 none 0 1 1 _ _
      (by rfl) (by rfl)⟩

/-- C8: with a bound `(lo, hi)`, `lo < hi`, the clipped rate lies in
`[lo, hi]` and equals the raw rate whenever that already lies in the
bound; with no bound `_clip_lr` passes every parameter group's rate
through unchanged, and with a bound it clips every group. -/
theorem C8_lr_clip (r lo hi : ℚ) (groups : List ℚ) (h : lo < hi) :
    lo ≤ clipGroup r [lo, hi] ∧
    clipGroup r [lo, hi] ≤ hi ∧
    (lo ≤ r → r ≤ hi → clipGroup r [lo, hi] = r) ∧
    _clip_lr groups none = groups ∧
    _clip_lr groups (some [lo, hi])
      = groups.map (fun lr => clipGroup lr [lo, hi]) := by
  have h0 : ([lo, hi] : List ℚ).getD 0 0 = lo := rfl
  have h1 : ([lo, hi] : List ℚ).getD 1 0 = hi := rfl
  refine ⟨?_, ?_, ?_, rfl, ?_⟩
  · simp only [clipGroup, h0, h1]
    split_ifs <;> linarith
  · simp only [clipGroup, h0, h1]
    split_ifs <;> linarith
  · intro hlo hhi
    simp only [clipGroup, h0, h1]
    split_ifs <;> linarith
  · simp [_clip_lr]

/-- Witness for C8 at `r = 5`, bound `(1, 3)`, groups `[0, 2, 7]`. -/
theorem C8_lr_clip_witness :
    (1 : ℚ) < 3 ∧
    ((1 : ℚ) ≤ clipGroup 5 [1, 3] ∧
     clipGroup 5 [1, 3] ≤ 3 ∧
     ((1 : ℚ) ≤ 5 → (5 : ℚ) ≤ 3 → clipGroup 5 [1, 3] = 5) ∧
     _clip_lr [0, 2, 7] none = [0, 2, 7] ∧
     _clip_lr [0, 2, 7] (some [1, 3])
       = ([0, 2, 7] : List ℚ).map (fun lr => clipGroup lr [1, 3])) :=
  ⟨by norm_num, C8_lr_clip 5 1 3 [0, 2, 7] (by norm_num)⟩

lemma T_M_pos (total n : ℕ) (htotal : 0 < total) (hn : 0 < n) :
    0 < T_M total n := by
  unfold T_M
  exact Nat.ceil_pos.mpr (div_pos (by exact_mod_cast htotal) (by exact_mod_cast hn))

lemma lr_lambda_facts (T i : ℕ) (hT : 0 < T) :
    0 ≤ lr_lambda T i ∧ lr_lambda T i ≤ 1 ∧
    (i % T = 0 → lr_lambda T i = 1) ∧
    (i % T = T - 1 → 0 < lr_lambda T i) ∧
    lr_lambda T (i + T) = lr_lambda T i := by
  have hc1 := Real.neg_one_le_cos (Real.pi * ((i % T : ℕ) : ℝ) / (T : ℝ))
  have hc2 := Real.cos_le_one (Real.pi * ((i % T : ℕ) : ℝ) / (T : ℝ))
  refine ⟨by unfold lr_lambda; nlinarith, by unfold lr_lambda; nlinarith, ?_, ?_, ?_⟩
  · intro h
    unfold lr_lambda
    rw [h]
    norm_num
  · intro h
    unfold lr_lambda
    rw [h]
    have ht : (0 : ℝ) < (T : ℝ) := by exact_mod_cast hT
    have h1T : (1 : ℝ) ≤ (T : ℝ) := by exact_mod_cast hT
    have hcast : ((T - 1 : ℕ) : ℝ) = (T : ℝ) - 1 := by
      rw [Nat.cast_sub hT, Nat.cast_one]
    rw [hcast]
    set θ := Real.pi * ((T : ℝ) - 1) / (T : ℝ) with hθ
    have hfrac0 : 0 ≤ ((T : ℝ) - 1) / (T : ℝ) := div_nonneg (by linarith) ht.le
    have hfrac1 : ((T : ℝ) - 1) / (T : ℝ) < 1 := by
      rw [div_lt_one ht]
      linarith
    have hθ0 : 0 ≤ θ := by
      rw [hθ, mul_div_assoc]
      exact mul_nonneg Real.pi_pos.le hfrac0
    have hθπ : θ < Real.pi := by
      rw [hθ, mul_div_assoc]
      nlinarith [Real.pi_pos, mul_lt_mul_of_pos_left hfrac1 Real.pi_pos]
    have hhalf : Real.cos (θ / 2) > 0 := by
      apply Real.cos_pos_of_mem_Ioo
      constructor
      · have := Real.pi_pos
        nlinarith
      · nlinarith
    have hsq : Real.cos (θ / 2) ^ 2 = 1 / 2 + Real.cos θ / 2 := by
      have h2 : 2 * (θ / 2) = θ := by ring
      rw [Real.cos_sq, h2]
    nlinarith [pow_pos hhalf 2]
  · unfold lr_lambda
    rw [Nat.add_mod_right]

/-- C6: the scheduler multiplier at iteration `i` with period
`T = ceil(total_iterations / n_cycles)` equals
`0.5 * (cos(pi * (i % T) / T) + 1)`; it lies in `[0, 1]`, equals `1`
at phase `0`, is strictly positive at phase `T - 1`, and is periodic
in `i` with period `T`. -/
theorem C6_scheduler_multiplier (total n i : ℕ) (htotal : 0 < total)
    (hn : 0 < n) :
    _set_scheduler total n i
        = 0.5 * (Real.cos (Real.pi * ((i % T_M total n : ℕ) : ℝ)
            / (T_M total n : ℝ)) + 1) ∧
    0 ≤ _set_scheduler total n i ∧
    _set_scheduler total n i ≤ 1 ∧
    (i % T_M total n = 0 → _set_scheduler total n i = 1) ∧
    (i % T_M total n = T_M total n - 1 → 0 < _set_scheduler total n i) ∧
    _set_scheduler total n (i + T_M total n) = _set_scheduler total n i := by
  obtain ⟨h1, h2, h3, h4, h5⟩ :=
    lr_lambda_facts (T_M total n) i (T_M_pos total n htotal hn)
  exact ⟨rfl, h1, h2, h3, h4, h5⟩

/-- Witness for C6 at `total_iterations = 6`, `n_cycles = 3`,
iteration `4` (`T = 2`). -/
theorem C6_scheduler_multiplier_witness :
    0 < 6 ∧ 0 < 3 ∧
    (_set_scheduler 6 3 4
        = 0.5 * (Real.cos (Real.pi * ((4 % T_M 6 3 : ℕ) : ℝ)
            / (T_M 6 3 : ℝ)) + 1) ∧
     0 ≤ _set_scheduler 6 3 4 ∧
     _set_scheduler 6 3 4 ≤ 1 ∧
     (4 % T_M 6 3 = 0 → _set_scheduler 6 3 4 = 1) ∧
     (4 % T_M 6 3 = T_M 6 3 - 1 → 0 < _set_scheduler 6 3 4) ∧
     _set_scheduler 6 3 (4 + T_M 6 3) = _set_scheduler 6 3 4) :=
  ⟨by decide, by decide, C6_scheduler_multiplier 6 3 4 (by decide) (by decide)⟩

lemma foldl_add_apply {Input : Type} {m k : ℕ}
    (es : List (Input → Fin m → Fin k → ℝ)) (X : Input) (c : ℝ) :
    ∀ (o0 : Fin m → Fin k → ℝ) (i : Fin m) (j : Fin k),
      (es.foldl (fun output estimator => fun i j =>
          output i j + estimator X i j / c) o0) i j
        = o0 i j + (es.map (fun e => e X i j / c)).sum := by
  induction es with
  | nil => intro o0 i j; simp
  | cons a es ih =>
    intro o0 i j
    rw [List.foldl_cons, ih, List.map_cons, List.sum_cons, ← add_assoc]

lemma list_sum_div (l : List ℝ) (c : ℝ) :
    (l.map (fun x => x / c)).sum = l.sum / c := by
  induction l with
  | nil => simp
  | cons a l ih => simp [ih, add_div]

lemma _forward_eq_sum {Input : Type} {m k : ℕ}
    (es : List (Input → Fin m → Fin k → ℝ)) (X : Input) (i : Fin m) (j : Fin k) :
    _forward es X i j = (es.map (fun e => e X i j)).sum / (es.length : ℝ) := by
  unfold _forward
  rw [foldl_add_apply]
  have h : es.map (fun e => e X i j / (es.length : ℝ))
      = (es.map (fun e => e X i j)).map (fun x => x / (es.length : ℝ)) := by
    rw [List.map_map]
    rfl
  rw [h, list_sum_div, zero_add]

/-- Modelled from the spec: row-wise softmax applied once to the
elementwise arithmetic mean of the snapshots' raw outputs — the
combination rule §4.5 claims for classification. -/
noncomputable def specSoftmaxOfMeanLogits {Input : Type} {m k : ℕ}
    (es : List (Input → Fin m → Fin k → ℝ)) (X : Input) :
    Fin m → Fin k → ℝ :=
  fun i => softmax (fun j => (es.map (fun e => e X i j)).sum / (es.length : ℝ))

/-- Modelled from the spec: the combination rule §4.5 explicitly rejects —
the elementwise arithmetic mean of the per-snapshot softmax outputs. -/
noncomputable def specMeanOfSoftmaxes {Input : Type} {m k : ℕ}
    (es : List (Input → Fin m → Fin k → ℝ)) (X : Input) :
    Fin m → Fin k → ℝ :=
  fun i j =>
    (es.map (fun e => softmax (fun j' => e X i j') j)).sum / (es.length : ℝ)

/-- C5: on every input batch and non-empty snapshot collection the
classifier's prediction is the row-wise softmax applied once to the
elementwise arithmetic mean of the snapshots' raw outputs; and it differs
from the mean of per-snapshot softmaxes (witnessed at a concrete pair of
snapshots where the two rules give different numbers). -/
theorem C5_softmax_of_mean_logits :
    (∀ (Input : Type) (m k : ℕ) (es : List (Input → Fin m → Fin k → ℝ))
        (X : Input), es ≠ [] →
      SnapshotEnsembleClassifier.forward es X = specSoftmaxOfMeanLogits es X) ∧
    SnapshotEnsembleClassifier.forward
        ([fun _ _ j => if j = 0 then 2 else 0, fun _ _ _ => 0] :
          List (Unit → Fin 1 → Fin 2 → ℝ)) ()
      ≠ specMeanOfSoftmaxes
          ([fun _ _ j => if j = 0 then 2 else 0, fun _ _ _ => 0] :
            List (Unit → Fin 1 → Fin 2 → ℝ)) () := by
  constructor
  · intro Input m k es X hne
    funext i
    unfold SnapshotEnsembleClassifier.forward specSoftmaxOfMeanLogits
    have hv : _forward es X i
        = fun j => (es.map (fun e => e X i j)).sum / (es.length : ℝ) := by
      funext j
      exact _forward_eq_sum es X i j
    rw [hv]
  · intro heq
    have h00 := congrFun (congrFun heq 0) 0
    have hv0 : _forward ([fun _ _ j => if j = 0 then 2 else 0, fun _ _ _ => 0] :
        List (Unit → Fin 1 → Fin 2 → ℝ)) () 0 0 = 1 := by
      rw [_forward_eq_sum]
      norm_num
    have hv1 : _forward ([fun _ _ j => if j = 0 then 2 else 0, fun _ _ _ => 0] :
        List (Unit → Fin 1 → Fin 2 → ℝ)) () 0 1 = 0 := by
      rw [_forward_eq_sum]
      norm_num
    have hL : SnapshotEnsembleClassifier.forward
        ([fun _ _ j => if j = 0 then 2 else 0, fun _ _ _ => 0] :
          List (Unit → Fin 1 → Fin 2 → ℝ)) () 0 0
        = Real.exp 1 / (Real.exp 1 + 1) := by
      unfold SnapshotEnsembleClassifier.forward softmax
      rw [Fin.sum_univ_two, hv0, hv1, Real.exp_zero]
    have hR : specMeanOfSoftmaxes
        ([fun _ _ j => if j = 0 then 2 else 0, fun _ _ _ => 0] :
          List (Unit → Fin 1 → Fin 2 → ℝ)) () 0 0
        = (Real.exp 2 / (Real.exp 2 + 1) + 1 / 2) / 2 := by
      unfold specMeanOfSoftmaxes softmax
      simp only [List.map_cons, List.map_nil, List.sum_cons, List.sum_nil,
        List.length_cons, List.length_nil]
      rw [Fin.sum_univ_two, Fin.sum_univ_two]
      norm_num
    rw [hL, hR] at h00
    have ha : (2.7 : ℝ) < Real.exp 1 := by
      have := Real.exp_one_gt_d9
      norm_num at this ⊢
      linarith
    have hexp2 : Real.exp 2 = Real.exp 1 * Real.exp 1 := by
      rw [← Real.exp_add]
      norm_num
    rw [hexp2] at h00
    set a := Real.exp 1 with hadef
    have key : (a * a / (a * a + 1) + 1 / 2) / 2 < a / (a + 1) := by
      have h1 : (0:ℝ) < a + 1 := by linarith
      have h2 : (0:ℝ) < a * a + 1 := by nlinarith
      rw [div_lt_div_iff₀ (by norm_num : (0:ℝ) < 2) h1,
        div_add_div _ _ (ne_of_gt h2) (by norm_num : (2:ℝ) ≠ 0),
        div_mul_eq_mul_div, div_lt_iff₀ (by positivity)]
      ring_nf
      nlinarith [pow_pos (show (0:ℝ) < a - 1 by linarith) 3]
    exact (ne_of_gt key) h00

/-- Witness for C5's universally quantified part at a singleton snapshot
collection. -/
theorem C5_softmax_of_mean_logits_witness :
    ([fun _ _ _ => (1 : ℝ)] : List (Unit → Fin 1 → Fin 1 → ℝ)) ≠ [] ∧
    SnapshotEnsembleClassifier.forward
        ([fun _ _ _ => (1 : ℝ)] : List (Unit → Fin 1 → Fin 1 → ℝ)) ()
      = specSoftmaxOfMeanLogits
          ([fun _ _ _ => (1 : ℝ)] : List (Unit → Fin 1 → Fin 1 → ℝ)) () :=
  ⟨by simp, C5_softmax_of_mean_logits.1 Unit 1 1 _ () (by simp)⟩

/-- C9: the ensemble prediction — raw average and classifier softmax
alike — is invariant under any permutation of the snapshot collection
(the combination is a commutative, associative average in exact
arithmetic). -/
theorem C9_permutation_invariance {Input : Type} {m k : ℕ}
    (es es' : List (Input → Fin m → Fin k → ℝ)) (X : Input)
    (hp : es.Perm es') (hne : es ≠ []) :
    _forward es X = _forward es' X ∧
    SnapshotEnsembleClassifier.forward es X
      = SnapshotEnsembleClassifier.forward es' X := by
  have h1 : _forward es X = _forward es' X := by
    funext i j
    rw [_forward_eq_sum, _forward_eq_sum,
      (hp.map (fun e => e X i j)).sum_eq, hp.length_eq]
  refine ⟨h1, ?_⟩
  unfold SnapshotEnsembleClassifier.forward
  rw [h1]

/-- Witness for C9 on a two-snapshot collection and its transposition. -/
theorem C9_permutation_invariance_witness :
    (([fun _ _ _ => (1 : ℝ), fun _ _ _ => 0] :
        List (Unit → Fin 1 → Fin 1 → ℝ)).Perm
      [fun _ _ _ => 0, fun _ _ _ => (1 : ℝ)]) ∧
    ([fun _ _ _ => (1 : ℝ), fun _ _ _ => 0] :
        List (Unit → Fin 1 → Fin 1 → ℝ)) ≠ [] ∧
    (_forward ([fun _ _ _ => (1 : ℝ), fun _ _ _ => 0] :
          List (Unit → Fin 1 → Fin 1 → ℝ)) ()
        = _forward ([fun _ _ _ => 0, fun _ _ _ => (1 : ℝ)] :
          List (Unit → Fin 1 → Fin 1 → ℝ)) () ∧
     SnapshotEnsembleClassifier.forward
        ([fun _ _ _ => (1 : ℝ), fun _ _ _ => 0] :
          List (Unit → Fin 1 → Fin 1 → ℝ)) ()
        = SnapshotEnsembleClassifier.forward
            ([fun _ _ _ => 0, fun _ _ _ => (1 : ℝ)] :
              List (Unit → Fin 1 → Fin 1 → ℝ)) ()) :=
  ⟨List.Perm.swap _ _ _, by simp,
    C9_permutation_invariance _ _ () (List.Perm.swap _ _ _) (by simp)⟩

/-- C10 counterexample: on the empty snapshot collection the predictor is
neither guarded nor failing — at a concrete input it returns the
well-defined all-zero prediction, because the accumulation loop body
(and with it the division by the collection size) never executes. -/
theorem C10_empty_collection_counterexample :
    _forward ([] : List (Unit → Fin 1 → Fin 2 → ℝ)) () = fun _ _ => 0 := rfl

/-- C10 (amended): invoking the ensemble predictor on an empty snapshot
collection raises no error and is not guarded: `_forward` returns the
all-zero output, and the classifier's `forward` turns it into the uniform
distribution `1 / n_outputs`. -/
theorem C10_empty_collection_zeros (Input : Type) (m k : ℕ) (X : Input) :
    _forward ([] : List (Input → Fin m → Fin k → ℝ)) X = (fun _ _ => 0) ∧
    SnapshotEnsembleClassifier.forward
        ([] : List (Input → Fin m → Fin k → ℝ)) X
      = fun _ _ => 1 / (k : ℝ) := by
  refine ⟨rfl, ?_⟩
  funext i j
  unfold SnapshotEnsembleClassifier.forward softmax
  have h : _forward ([] : List (Input → Fin m → Fin k → ℝ)) X
      = fun _ _ => 0 := rfl
  rw [h]
  simp [Real.exp_zero]

end SnapshotEnsemble
